import Mathlib

/-!
YaNFD: network region table, BestRoute strategy, ControlParameters codec, Unix stream
transport

A shallow embedding of

* `table/network-region.go`   (`networkRegionTable.Add`, `networkRegionTable.IsProducer`)
* `fw/bestroute.go`           (`BestRoute.AfterContentStoreHit`, `AfterReceiveData`,
                               `AfterReceiveInterest`)
* `ndn/mgmt/control-parameters.go` (`DecodeControlParameters`, `ControlParameters.Encode`)
* `face/unix-stream-transport.go`  (`MakeUnixStreamTransport`, `UnixStreamTransport.sendFrame`)

Go slices are lists, `uint64` values that are only stored and compared are `Nat`,
a nilable pointer field is an `Option`, a `(value, error)` result is an `Except`,
and the calls a strategy makes on its base (`SendInterest`, `SendData`) are returned
as the list of calls in the order they are made.
-/

namespace YaNFD

/-! ## table/network-region.go -/

/-- The two methods of `ndn.Name` that the network region table calls.
`ndn.Name` is declared outside the files embedded here, so both are parameters. -/
structure NameOps (Name : Type) where
  /-- `(*ndn.Name).Equals` -/
  Equals : Name → Name → Bool
  /-- `(*ndn.Name).PrefixOf`: `PrefixOf a b` is the Go call `a.PrefixOf(b)` -/
  PrefixOf : Name → Name → Bool

/-- `type networkRegionTable struct { table []*ndn.Name }` -/
structure networkRegionTable (Name : Type) where
  table : List Name

namespace networkRegionTable

variable {Name : Type}

/-- The `for _, region := range n.table` loop of `Add`: `true` when the loop body
executes `return` (some region equals `name`), `false` when the loop runs to its end. -/
def addFound (ops : NameOps Name) (name : Name) : List Name → Bool
  | [] => false
  | region :: rest => if ops.Equals region name then true else addFound ops name rest

/-- `func (n *networkRegionTable) Add(name *ndn.Name)`; the receiver after the call. -/
def Add (ops : NameOps Name) (n : networkRegionTable Name) (name : Name) :
    networkRegionTable Name :=
  if addFound ops name n.table then n else { table := n.table ++ [name] }

/-- The `for _, region := range n.table` loop of `IsProducer`. -/
def isProducerLoop (ops : NameOps Name) (name : Name) : List Name → Bool
  | [] => false
  | region :: rest => if ops.PrefixOf region name then true else isProducerLoop ops name rest

/-- `func (n *networkRegionTable) IsProducer(name *ndn.Name) bool` -/
def IsProducer (ops : NameOps Name) (n : networkRegionTable Name) (name : Name) : Bool :=
  isProducerLoop ops name n.table

end networkRegionTable

/-- A concrete `ndn.Name` for evaluation: the list of its components, with
component-wise equality and the list-prefix test. -/
def listNameOps : NameOps (List Nat) where
  Equals := fun a b => decide (a = b)
  PrefixOf := fun a b => a.isPrefixOf b

/-! ## fw/bestroute.go -/

/-- `table.FibNextHopEntry`: the two fields `BestRoute` reads. -/
structure FibNextHopEntry where
  Nexthop : Nat
  Cost : Nat
  deriving DecidableEq, Repr

/-- `table.PitEntry`: the field `BestRoute` reads. `InRecords` is the Go map
`map[uint64]*PitInRecord`, given as its key/value pairs in the order in which the
`range` statement visits them; a map holds each key once. -/
structure PitEntry (InRecord : Type) where
  InRecords : List (Nat × InRecord)

/-- A call made by a strategy on its `StrategyBase`, with its arguments in the
order of the Go signature. -/
inductive Call (Interest Data InRecord : Type) where
  /-- `s.SendInterest(interest, pitEntry, nexthop, inFace)` -/
  | SendInterest (interest : Interest) (pitEntry : PitEntry InRecord) (nexthop inFace : Nat)
  /-- `s.SendData(data, pitEntry, nexthop, inFace)` -/
  | SendData (data : Data) (pitEntry : PitEntry InRecord) (nexthop inFace : Nat)

namespace Call

variable {Interest Data InRecord : Type}

/-- Whether a call is a `SendData` whose destination (third argument) is `faceID`. -/
def isSendDataTo (faceID : Nat) : Call Interest Data InRecord → Bool
  | SendData _ _ nexthop _ => decide (nexthop = faceID)
  | SendInterest _ _ _ _ => false

end Call

namespace BestRoute

variable {Interest Data InRecord : Type}

/-- `func (s *BestRoute) AfterContentStoreHit(pitEntry, inFace, data)` -/
def AfterContentStoreHit (pitEntry : PitEntry InRecord) (inFace : Nat) (data : Data) :
    List (Call Interest Data InRecord) :=
  [Call.SendData data pitEntry inFace 0]

/-- The `for faceID := range pitEntry.InRecords` loop of `AfterReceiveData`, over the
entries still to be visited. -/
def afterReceiveDataLoop (pitEntry : PitEntry InRecord) (inFace : Nat) (data : Data) :
    List (Nat × InRecord) → List (Call Interest Data InRecord)
  | [] => []
  | (faceID, _) :: rest =>
      Call.SendData data pitEntry faceID inFace :: afterReceiveDataLoop pitEntry inFace data rest

/-- `func (s *BestRoute) AfterReceiveData(pitEntry, inFace, data)` -/
def AfterReceiveData (pitEntry : PitEntry InRecord) (inFace : Nat) (data : Data) :
    List (Call Interest Data InRecord) :=
  afterReceiveDataLoop pitEntry inFace data pitEntry.InRecords

/-- The `for _, nexthop := range nexthops` loop of `AfterReceiveInterest`: the value of
`lowestCost` when the loop ends, from its value before the remaining entries. -/
def lowestCostLoop (lowestCost : FibNextHopEntry) : List FibNextHopEntry → FibNextHopEntry
  | [] => lowestCost
  | nexthop :: rest =>
      if nexthop.Cost < lowestCost.Cost then lowestCostLoop nexthop rest
      else lowestCostLoop lowestCost rest

/-- `func (s *BestRoute) AfterReceiveInterest(pitEntry, inFace, interest, nexthops)` -/
def AfterReceiveInterest (pitEntry : PitEntry InRecord) (inFace : Nat) (interest : Interest)
    (nexthops : List FibNextHopEntry) : List (Call Interest Data InRecord) :=
  match nexthops with
  | [] => []
  | first :: _ =>
      let lowestCost := lowestCostLoop first nexthops
      [Call.SendInterest interest pitEntry lowestCost.Nexthop inFace]

end BestRoute

/-! ## ndn/mgmt/control-parameters.go -/

/-- A Go `error` returned by the ControlParameters codec: a fresh `errors.New(text)`
or one of the two sentinel errors of package `tlv`. -/
inductive Error where
  /-- `errors.New(text)` -/
  | New (text : String)
  /-- `tlv.ErrUnexpected` -/
  | ErrUnexpected
  /-- `tlv.ErrUnrecognizedCritical` -/
  | ErrUnrecognizedCritical
  deriving DecidableEq, Repr

/-- `type ControlParameters struct`: sixteen nilable pointer fields, in the order of
the Go declaration. `N` is `ndn.Name`, `U` is `ndn.URI`; `new(ControlParameters)` is
the value with every field `none`. -/
structure ControlParameters (N U : Type) where
  Name : Option N := none
  FaceID : Option Nat := none
  URI : Option U := none
  LocalURI : Option U := none
  Origin : Option Nat := none
  Cost : Option Nat := none
  Capacity : Option Nat := none
  Count : Option Nat := none
  BaseCongestionMarkingInterval : Option Nat := none
  DefaultCongestionThreshold : Option Nat := none
  MTU : Option Nat := none
  Flags : Option Nat := none
  Mask : Option Nat := none
  Strategy : Option N := none
  ExpirationPeriod : Option Nat := none
  FacePersistency : Option Nat := none
  deriving DecidableEq, Repr

/-- `func MakeControlParameters() *ControlParameters` -/
def MakeControlParameters {N U : Type} : ControlParameters N U := {}

/-- What the codec uses of package `tlv`, which is declared outside the files embedded
here: the TLV type numbers, `IsCritical`, the methods of `tlv.Block` and the
non-negative-integer block codec. A method that changes its receiver is given as the
function from the receiver before the call to the receiver after it; the `error` that
`Parse` and `Encode` return is discarded by every call in the codec. A Go `string` and
a `[]byte` are both the list of their bytes. -/
structure TlvPackage (Block : Type) where
  ControlParameters : Nat
  Name : Nat
  FaceID : Nat
  URI : Nat
  LocalURI : Nat
  Origin : Nat
  Cost : Nat
  Capacity : Nat
  Count : Nat
  BaseCongestionMarkingInterval : Nat
  DefaultCongestionThreshold : Nat
  MTU : Nat
  Flags : Nat
  Mask : Nat
  Strategy : Nat
  ExpirationPeriod : Nat
  FacePersistency : Nat
  /-- `tlv.IsCritical` -/
  IsCritical : Nat → Bool
  /-- `(*Block).Type` -/
  BlockType : Block → Nat
  /-- `(*Block).Value` -/
  Value : Block → List Nat
  /-- `(*Block).Subelements` -/
  Subelements : Block → List Block
  /-- `(*Block).Parse`: the block after the call -/
  Parse : Block → Block
  /-- `(*Block).Append`: the receiver after appending the second block -/
  Append : Block → Block → Block
  /-- `(*Block).Encode`: the block after the call -/
  Encode : Block → Block
  /-- `tlv.NewEmptyBlock` -/
  NewEmptyBlock : Nat → Block
  /-- `tlv.NewBlock` -/
  NewBlock : Nat → List Nat → Block
  /-- `tlv.EncodeNNIBlock` -/
  EncodeNNIBlock : Nat → Nat → Block
  /-- `tlv.DecodeNNIBlock`; an error is given by its `Error()` text -/
  DecodeNNIBlock : Block → Except String Nat

/-- What the codec uses of package `ndn`, which is declared outside the files embedded
here. `DecodeURIString` returns a `*ndn.URI` and no error, so `none` is the nil
pointer. -/
structure NdnPackage (Block N U : Type) where
  /-- `(*ndn.Name).Encode` -/
  NameEncode : N → Block
  /-- `ndn.DecodeName`; an error is given by its `Error()` text -/
  DecodeName : Block → Except String N
  /-- `(*ndn.URI).String` -/
  URIString : U → List Nat
  /-- `ndn.DecodeURIString` -/
  DecodeURIString : List Nat → Option U

namespace TlvPackage

variable {Block : Type}

/-- Whether a type number is one of the sixteen `case` labels of the `switch` in
`DecodeControlParameters`. -/
def recognised (tlv : TlvPackage Block) (t : Nat) : Bool :=
  decide (t ∈ [tlv.Name, tlv.FaceID, tlv.URI, tlv.LocalURI, tlv.Origin, tlv.Cost, tlv.Capacity,
    tlv.Count, tlv.BaseCongestionMarkingInterval, tlv.DefaultCongestionThreshold, tlv.MTU,
    tlv.Flags, tlv.Mask, tlv.Strategy, tlv.ExpirationPeriod, tlv.FacePersistency])

end TlvPackage

section Codec

variable {Block N U : Type}

/-- One iteration of the `for _, elem := range wire.Subelements()` loop of
`DecodeControlParameters`: the `switch elem.Type()` statement. The state is the value
`c` under construction and the variable `err` (`none` is `nil`); `.error` is a
`return nil, e` out of the function. -/
def decodeElem (tlv : TlvPackage Block) (ndn : NdnPackage Block N U)
    (c : ControlParameters N U) (err : Option String) (elem : Block) :
    Except Error (ControlParameters N U × Option String) :=
  let t := tlv.BlockType elem
  if t = tlv.Name then
    if c.Name.isSome then .error (.New "duplicate Name")
    else
      match ndn.DecodeName elem with
      | .ok name => .ok ({ c with Name := some name }, none)
      | .error e => .error (.New ("unable to decode Name: " ++ e))
  else if t = tlv.FaceID then
    if c.FaceID.isSome then .error (.New "duplicate FaceId")
    else
      match tlv.DecodeNNIBlock elem with
      | .ok v => .ok ({ c with FaceID := some v }, none)
      | .error e => .error (.New ("unable to decode FaceId: " ++ e))
  else if t = tlv.URI then
    if c.URI.isSome then .error (.New "duplicate Uri")
    else
      match err with
      | some e => .error (.New ("unable to decode Uri: " ++ e))
      | none => .ok ({ c with URI := ndn.DecodeURIString (tlv.Value elem) }, err)
  else if t = tlv.LocalURI then
    if c.LocalURI.isSome then .error (.New "duplicate LocalUri")
    else
      match err with
      | some e => .error (.New ("unable to decode LocalUri: " ++ e))
      | none => .ok ({ c with LocalURI := ndn.DecodeURIString (tlv.Value elem) }, err)
  else if t = tlv.Origin then
    if c.Origin.isSome then .error (.New "duplicate Origin")
    else
      match tlv.DecodeNNIBlock elem with
      | .ok v => .ok ({ c with Origin := some v }, none)
      | .error e => .error (.New ("unable to decode Origin: " ++ e))
  else if t = tlv.Cost then
    if c.Cost.isSome then .error (.New "duplicate Cost")
    else
      match tlv.DecodeNNIBlock elem with
      | .ok v => .ok ({ c with Cost := some v }, none)
      | .error e => .error (.New ("unable to decode Cost: " ++ e))
  else if t = tlv.Capacity then
    if c.Capacity.isSome then .error (.New "duplicate FaceId")
    else
      match tlv.DecodeNNIBlock elem with
      | .ok v => .ok ({ c with Capacity := some v }, none)
      | .error e => .error (.New ("unable to decode Capacity: " ++ e))
  else if t = tlv.Count then
    if c.Count.isSome then .error (.New "duplicate Count")
    else
      match tlv.DecodeNNIBlock elem with
      | .ok v => .ok ({ c with Count := some v }, none)
      | .error e => .error (.New ("unable to decode Count: " ++ e))
  else if t = tlv.BaseCongestionMarkingInterval then
    if c.BaseCongestionMarkingInterval.isSome then .error (.New "duplicate BaseCongestionMarkingInterval")
    else
      match tlv.DecodeNNIBlock elem with
      | .ok v => .ok ({ c with BaseCongestionMarkingInterval := some v }, none)
      | .error e => .error (.New ("unable to decode BaseCongestionMarkingInterval: " ++ e))
  else if t = tlv.DefaultCongestionThreshold then
    if c.FaceID.isSome then .error (.New "duplicate DefaultCongestionThreshold")
    else
      match tlv.DecodeNNIBlock elem with
      | .ok v => .ok ({ c with DefaultCongestionThreshold := some v }, none)
      | .error e => .error (.New ("unable to decode DefaultCongestionThreshold: " ++ e))
  else if t = tlv.MTU then
    if c.MTU.isSome then .error (.New "duplicate Mtu")
    else
      match tlv.DecodeNNIBlock elem with
      | .ok v => .ok ({ c with MTU := some v }, none)
      | .error e => .error (.New ("Unable to decode Mtu: " ++ e))
  else if t = tlv.Flags then
    if c.Flags.isSome then .error (.New "duplicate Flags")
    else
      match tlv.DecodeNNIBlock elem with
      | .ok v => .ok ({ c with Flags := some v }, none)
      | .error e => .error (.New ("unable to decode Flags: " ++ e))
  else if t = tlv.Mask then
    if c.Mask.isSome then .error (.New "duplicate Mask")
    else
      match tlv.DecodeNNIBlock elem with
      | .ok v => .ok ({ c with Mask := some v }, none)
      | .error e => .error (.New ("unable to decode Mask: " ++ e))
  else if t = tlv.Strategy then
    if c.Strategy.isSome then .error (.New "duplicate Strategy")
    else
      let elem := tlv.Parse elem
      match tlv.Subelements elem with
      | [sub] =>
          match ndn.DecodeName sub with
          | .ok name => .ok ({ c with Strategy := some name }, none)
          | .error e => .error (.New ("unable to decode Strategy: " ++ e))
      | subs =>
          .error (.New ("unable to decode Strategy: Expecting one subelement, found "
            ++ toString subs.length))
  else if t = tlv.ExpirationPeriod then
    if c.ExpirationPeriod.isSome then .error (.New "duplicate ExpirationPeriod")
    else
      match tlv.DecodeNNIBlock elem with
      | .ok v => .ok ({ c with ExpirationPeriod := some v }, none)
      | .error e => .error (.New ("unable to decode ExpirationPeriod: " ++ e))
  else if t = tlv.FacePersistency then
    if c.FacePersistency.isSome then .error (.New "duplicate FacePersistency")
    else
      match tlv.DecodeNNIBlock elem with
      | .ok v => .ok ({ c with FacePersistency := some v }, none)
      | .error e => .error (.New ("unable to decode FacePersistency: " ++ e))
  else if tlv.IsCritical t then .error .ErrUnrecognizedCritical
  else .ok (c, err)

/-- The `for _, elem := range wire.Subelements()` loop of `DecodeControlParameters`,
over the elements still to be visited. -/
def decodeLoop (tlv : TlvPackage Block) (ndn : NdnPackage Block N U)
    (c : ControlParameters N U) (err : Option String) :
    List Block → Except Error (ControlParameters N U × Option String)
  | [] => .ok (c, err)
  | elem :: rest =>
      match decodeElem tlv ndn c err elem with
      | .ok (c, err) => decodeLoop tlv ndn c err rest
      | .error e => .error e

/-- `func DecodeControlParameters(wire *tlv.Block) (*ControlParameters, error)`;
`none` is the nil `wire`, `.ok c` is `return c, nil` and `.error e` is `return nil, e`. -/
def DecodeControlParameters (tlv : TlvPackage Block) (ndn : NdnPackage Block N U)
    (wire : Option Block) : Except Error (ControlParameters N U) :=
  match wire with
  | none => .error (.New "wire is unset")
  | some wire =>
      if tlv.BlockType wire ≠ tlv.ControlParameters then .error .ErrUnexpected
      else
        let wire := tlv.Parse wire
        match decodeLoop tlv ndn {} none (tlv.Subelements wire) with
        | .ok (c, _) => .ok c
        | .error e => .error e

/-- `func (c *ControlParameters) Encode() (*tlv.Block, error)`; the error it returns
is always nil. -/
def ControlParameters.Encode (tlv : TlvPackage Block) (ndn : NdnPackage Block N U)
    (c : ControlParameters N U) : Except Error Block :=
  let wire := tlv.NewEmptyBlock tlv.ControlParameters
  let wire := match c.Name with
    | some name => tlv.Append wire (ndn.NameEncode name)
    | none => wire
  let wire := match c.FaceID with
    | some v => tlv.Append wire (tlv.EncodeNNIBlock tlv.FaceID v)
    | none => wire
  let wire := match c.URI with
    | some uri => tlv.Append wire (tlv.NewBlock tlv.URI (ndn.URIString uri))
    | none => wire
  let wire := match c.LocalURI with
    | some uri => tlv.Append wire (tlv.NewBlock tlv.LocalURI (ndn.URIString uri))
    | none => wire
  let wire := match c.Origin with
    | some v => tlv.Append wire (tlv.EncodeNNIBlock tlv.Origin v)
    | none => wire
  let wire := match c.Cost with
    | some v => tlv.Append wire (tlv.EncodeNNIBlock tlv.Cost v)
    | none => wire
  let wire := match c.Capacity with
    | some v => tlv.Append wire (tlv.EncodeNNIBlock tlv.Capacity v)
    | none => wire
  let wire := match c.Count with
    | some v => tlv.Append wire (tlv.EncodeNNIBlock tlv.Count v)
    | none => wire
  let wire := match c.BaseCongestionMarkingInterval with
    | some v => tlv.Append wire (tlv.EncodeNNIBlock tlv.BaseCongestionMarkingInterval v)
    | none => wire
  let wire := match c.DefaultCongestionThreshold with
    | some v => tlv.Append wire (tlv.EncodeNNIBlock tlv.DefaultCongestionThreshold v)
    | none => wire
  let wire := match c.MTU with
    | some v => tlv.Append wire (tlv.EncodeNNIBlock tlv.MTU v)
    | none => wire
  let wire := match c.Flags with
    | some v => tlv.Append wire (tlv.EncodeNNIBlock tlv.Flags v)
    | none => wire
  let wire := match c.Mask with
    | some v => tlv.Append wire (tlv.EncodeNNIBlock tlv.Mask v)
    | none => wire
  let wire := match c.Strategy with
    | some name =>
        let strategyBlock := tlv.NewEmptyBlock tlv.Strategy
        let strategyBlock := tlv.Append strategyBlock (ndn.NameEncode name)
        tlv.Append wire strategyBlock
    | none => wire
  let wire := match c.ExpirationPeriod with
    | some v => tlv.Append wire (tlv.EncodeNNIBlock tlv.ExpirationPeriod v)
    | none => wire
  let wire := match c.FacePersistency with
    | some v => tlv.Append wire (tlv.EncodeNNIBlock tlv.FacePersistency v)
    | none => wire
  let wire := tlv.Encode wire
  .ok wire

end Codec

/-! ## An instance of the two packages, for evaluating the codec on concrete blocks -/

/-- A `tlv.Block` kept in parsed form: its type number, its value bytes and its
subelements. The wire bytes of a block are not part of this instance. -/
inductive TreeBlock where
  | mk (typ : Nat) (value : List Nat) (subelements : List TreeBlock)

namespace TreeBlock

/-- The type number of a block. -/
def typ : TreeBlock → Nat
  | mk t _ _ => t

/-- The value bytes of a block. -/
def value : TreeBlock → List Nat
  | mk _ v _ => v

/-- The subelements of a block. -/
def subelements : TreeBlock → List TreeBlock
  | mk _ _ subs => subs

/-- The block with one more subelement at the end. -/
def append : TreeBlock → TreeBlock → TreeBlock
  | mk t v subs, b => mk t v (subs ++ [b])

/-- The big-endian bytes of a non-negative integer, in 1, 2, 4 or 8 bytes. -/
def nniBytes (v : Nat) : List Nat :=
  if v < 2 ^ 8 then [v]
  else if v < 2 ^ 16 then [v / 2 ^ 8, v % 2 ^ 8]
  else if v < 2 ^ 32 then [v / 2 ^ 24, v / 2 ^ 16 % 2 ^ 8, v / 2 ^ 8 % 2 ^ 8, v % 2 ^ 8]
  else [v / 2 ^ 56 % 2 ^ 8, v / 2 ^ 48 % 2 ^ 8, v / 2 ^ 40 % 2 ^ 8, v / 2 ^ 32 % 2 ^ 8,
        v / 2 ^ 24 % 2 ^ 8, v / 2 ^ 16 % 2 ^ 8, v / 2 ^ 8 % 2 ^ 8, v % 2 ^ 8]

/-- The non-negative integer held by 1, 2, 4 or 8 big-endian bytes. -/
def nniValue : List Nat → Except String Nat
  | [a] => .ok a
  | [a, b] => .ok (a * 2 ^ 8 + b)
  | [a, b, c, d] => .ok (((a * 2 ^ 8 + b) * 2 ^ 8 + c) * 2 ^ 8 + d)
  | [a, b, c, d, e, f, g, h] =>
      .ok (((((((a * 2 ^ 8 + b) * 2 ^ 8 + c) * 2 ^ 8 + d) * 2 ^ 8 + e) * 2 ^ 8 + f) * 2 ^ 8 + g)
        * 2 ^ 8 + h)
  | _ => .error "invalid length for non-negative integer"

end TreeBlock

/-- Package `tlv` over `TreeBlock`. The type numbers are the assignments of the NDN
packet format and the NFD management protocol; a type is critical when it is at most
31 or odd; `Parse` and `Encode` leave a block in parsed form as it is. -/
def treeTlv : TlvPackage TreeBlock where
  ControlParameters := 0x68
  Name := 0x07
  FaceID := 0x69
  URI := 0x48
  LocalURI := 0x81
  Origin := 0x6f
  Cost := 0x6a
  Capacity := 0x83
  Count := 0x84
  BaseCongestionMarkingInterval := 0x87
  DefaultCongestionThreshold := 0x88
  MTU := 0x89
  Flags := 0x6c
  Mask := 0x70
  Strategy := 0x6b
  ExpirationPeriod := 0x6d
  FacePersistency := 0x85
  IsCritical := fun t => decide (t ≤ 31) || decide (t % 2 = 1)
  BlockType := TreeBlock.typ
  Value := TreeBlock.value
  Subelements := TreeBlock.subelements
  Parse := fun b => b
  Append := TreeBlock.append
  Encode := fun b => b
  NewEmptyBlock := fun t => TreeBlock.mk t [] []
  NewBlock := fun t v => TreeBlock.mk t v []
  EncodeNNIBlock := fun t v => TreeBlock.mk t (TreeBlock.nniBytes v) []
  DecodeNNIBlock := fun b => TreeBlock.nniValue b.value

/-- Package `ndn` over `TreeBlock`: a name is the list of its generic components
(TLV type 8), each a byte string; a URI is its own text. -/
def treeNdn : NdnPackage TreeBlock (List (List Nat)) (List Nat) where
  NameEncode := fun n => TreeBlock.mk 0x07 [] (n.map (fun comp => TreeBlock.mk 0x08 comp []))
  DecodeName := fun b =>
    if b.typ ≠ 0x07 then .error "block is not a Name"
    else .ok (b.subelements.map TreeBlock.value)
  URIString := fun u => u
  DecodeURIString := fun s => some s

/-- A ControlParameters block (type 0x68) with the given subelements. -/
def cpBlock (elems : List TreeBlock) : TreeBlock := TreeBlock.mk 0x68 [] elems

/-- A FaceId element (type 0x69) holding `v`. -/
def faceIdElem (v : Nat) : TreeBlock := treeTlv.EncodeNNIBlock treeTlv.FaceID v

/-- A DefaultCongestionThreshold element (type 0x88) holding `v`. -/
def thresholdElem (v : Nat) : TreeBlock :=
  treeTlv.EncodeNNIBlock treeTlv.DefaultCongestionThreshold v

/-- `Encode` followed by `DecodeControlParameters` on the block it returns. -/
def encodeThenDecode {Block N U : Type} (tlv : TlvPackage Block) (ndn : NdnPackage Block N U)
    (c : ControlParameters N U) : Except Error (ControlParameters N U) :=
  match ControlParameters.Encode tlv ndn c with
  | .ok wire => DecodeControlParameters tlv ndn (some wire)
  | .error e => .error e

/-- The value with FaceID 1 and DefaultCongestionThreshold 2, every other field unset. -/
def faceAndThreshold : ControlParameters (List (List Nat)) (List Nat) :=
  { FaceID := some 1, DefaultCongestionThreshold := some 2 }

/-- Three nexthops; the second and third share the lowest cost. -/
def sampleNexthops : List FibNextHopEntry :=
  [{ Nexthop := 2, Cost := 10 }, { Nexthop := 3, Cost := 5 }, { Nexthop := 4, Cost := 5 }]

/-- A PIT entry with InRecords for faces 1 and 3. -/
def samplePitEntry : PitEntry Unit := { InRecords := [(1, ()), (3, ())] }

/-- A region table holding the names `/1` and `/2/3`. -/
def sampleRegions : networkRegionTable (List Nat) := { table := [[1], [2, 3]] }

/-- An element of type 0x63, which is odd (critical) and not a ControlParameters field. -/
def unknownCriticalElem : TreeBlock := TreeBlock.mk 0x63 [] []

/-! ## face/unix-stream-transport.go -/

/-- `ndn.Scope`: the two scopes the face package names (`ndn.Local`, `ndn.NonLocal`). -/
inductive Scope where
  | Local
  | NonLocal
  deriving DecidableEq, Repr

/-- `ndn.State`: the two states the face package names (`ndn.Up`, `ndn.Down`). -/
inductive State where
  | Up
  | Down
  deriving DecidableEq, Repr

/-- The error `core.ErrNotCanonical`. -/
inductive CoreError where
  | ErrNotCanonical
  deriving DecidableEq, Repr

/-- `transportBase`, the struct embedded in every transport. It is declared outside the
files embedded here; the fields are those the face files name (`remoteURI`,
`localURI`, `scope`, `state`) and `mtu`, the size the transport was made with. -/
structure transportBase (URI : Type) where
  remoteURI : URI
  localURI : URI
  scope : Scope
  state : State
  mtu : Nat

/-- `type UnixStreamTransport struct { conn net.Conn; transportBase }` -/
structure UnixStreamTransport (URI Conn : Type) extends transportBase URI where
  conn : Conn

/-- What `unix-stream-transport.go` uses and does not declare: two methods of
`ndn.URI`, the constant `tlv.MaxNDNPacketSize`, the zero value of `transportBase`
(the embedded part of `new(UnixStreamTransport)`), and the methods
`makeTransportBase`, `MTU` and `changeState`, each method that changes its receiver
given as the function from the receiver before the call to the receiver after it. -/
structure FacePackage (URI Conn : Type) where
  /-- `(*ndn.URI).IsCanonical` -/
  IsCanonical : URI → Bool
  /-- `(*ndn.URI).Scheme` -/
  Scheme : URI → String
  /-- `tlv.MaxNDNPacketSize` -/
  MaxNDNPacketSize : Nat
  /-- The zero value of `transportBase` -/
  zeroBase : transportBase URI
  /-- `(*transportBase).makeTransportBase(remoteURI, localURI, mtu)` -/
  makeTransportBase : transportBase URI → URI → URI → Nat → transportBase URI
  /-- `(*transportBase).MTU` -/
  MTU : transportBase URI → Nat
  /-- `t.changeState(new)` -/
  changeState : UnixStreamTransport URI Conn → State → UnixStreamTransport URI Conn

section Face

variable {URI Conn : Type}

/-- `func MakeUnixStreamTransport(remoteURI ndn.URI, localURI ndn.URI, conn net.Conn)
(*UnixStreamTransport, error)`; `.error e` is `return nil, e` and `.ok t` is
`return t, nil`. -/
def MakeUnixStreamTransport (face : FacePackage URI Conn) (remoteURI localURI : URI)
    (conn : Conn) : Except CoreError (UnixStreamTransport URI Conn) :=
  if !face.IsCanonical remoteURI || face.Scheme remoteURI != "fd"
      || !face.IsCanonical localURI || face.Scheme localURI != "unix" then
    .error .ErrNotCanonical
  else
    let base := face.makeTransportBase face.zeroBase remoteURI localURI face.MaxNDNPacketSize
    let base := { base with scope := Scope.Local }
    .ok { base with conn := conn }

/-- `func (t *UnixStreamTransport) sendFrame(frame []byte)`. `writeErr` is the error
that `t.conn.Write(frame)` returns when it is called (`none` is nil). The result is
the transport after the call and the list of frames passed to `t.conn.Write`, in
order; logging is not part of the state. -/
def UnixStreamTransport.sendFrame (face : FacePackage URI Conn)
    (t : UnixStreamTransport URI Conn) (frame : List Nat) (writeErr : Option String) :
    UnixStreamTransport URI Conn × List (List Nat) :=
  if frame.length > face.MTU t.totransportBase then (t, [])
  else
    match writeErr with
    | some _ => (face.changeState t State.Down, [frame])
    | none => (t, [frame])

end Face

/-- A URI for evaluation: its scheme, the rest of its text and whether it is canonical. -/
structure SampleURI where
  scheme : String
  path : String
  canonical : Bool
  deriving DecidableEq, Repr

/-- An instance of `FacePackage`: a connection is its file descriptor number,
`makeTransportBase` stores its three arguments, `MTU` returns the stored size and
`changeState` stores the new state; the largest packet is 8800 bytes. -/
def sampleFace : FacePackage SampleURI Nat where
  IsCanonical := fun u => u.canonical
  Scheme := fun u => u.scheme
  MaxNDNPacketSize := 8800
  zeroBase :=
    { remoteURI := { scheme := "", path := "", canonical := false }
      localURI := { scheme := "", path := "", canonical := false }
      scope := Scope.Local
      state := State.Down
      mtu := 0 }
  makeTransportBase := fun b remoteURI localURI mtu =>
    { b with remoteURI := remoteURI, localURI := localURI, mtu := mtu }
  MTU := fun b => b.mtu
  changeState := fun t new => { t with state := new }

/-- The canonical URI `fd://5`. -/
def fdURI : SampleURI := { scheme := "fd", path := "5", canonical := true }

/-- The canonical URI `unix:///run/nfd.sock`. -/
def unixURI : SampleURI := { scheme := "unix", path := "/run/nfd.sock", canonical := true }

/-- A Unix stream transport on connection 5 that is up, with an MTU of 4 bytes. -/
def smallTransport : UnixStreamTransport SampleURI Nat :=
  { remoteURI := fdURI, localURI := unixURI, scope := Scope.Local, state := State.Up,
    mtu := 4, conn := 5 }

/-- A Strategy element (type 0x6b) with the given subelements. -/
def strategyElem (subs : List TreeBlock) : TreeBlock := TreeBlock.mk 0x6b [] subs

/-- The Name block of the name `/1/2` (two generic components). -/
def sampleNameBlock : TreeBlock := treeNdn.NameEncode [[1], [2]]

/-- A ControlParameters block with a FaceId element and a Strategy element that holds
the one Name `/1/2`. -/
def strategyWire : TreeBlock := cpBlock [faceIdElem 1, strategyElem [sampleNameBlock]]

/-! ## Theorems: network region table -/

namespace networkRegionTable

variable {Name : Type}

theorem isProducerLoop_iff (ops : NameOps Name) (name : Name) (l : List Name) :
    isProducerLoop ops name l = true ↔ ∃ region ∈ l, ops.PrefixOf region name = true := by
  induction l with
  | nil => simp [isProducerLoop]
  | cons region rest ih =>
    by_cases h : ops.PrefixOf region name = true
    · simp [isProducerLoop, h]
    · simp [isProducerLoop, h, ih]

theorem addFound_iff (ops : NameOps Name) (name : Name) (l : List Name) :
    addFound ops name l = true ↔ ∃ region ∈ l, ops.Equals region name = true := by
  induction l with
  | nil => simp [addFound]
  | cons region rest ih =>
    by_cases h : ops.Equals region name = true
    · simp [addFound, h]
    · simp [addFound, h, ih]

end networkRegionTable

/-- C8: `IsProducer(name)` is true exactly when some entry of the table is a prefix of
`name` (`PrefixOf`), and it is false on the empty table. -/
theorem C8_isProducer_iff {Name : Type} (ops : NameOps Name) (n : networkRegionTable Name)
    (name : Name) :
    (networkRegionTable.IsProducer ops n name = true ↔
        ∃ region ∈ n.table, ops.PrefixOf region name = true) ∧
      networkRegionTable.IsProducer ops { table := [] } name = false := by
  refine ⟨networkRegionTable.isProducerLoop_iff ops name n.table, ?_⟩
  simp [networkRegionTable.IsProducer, networkRegionTable.isProducerLoop]

/-- C9: when `Equals` is compatible with `PrefixOf` (an entry equal to `name` is a
prefix of whatever `name` is a prefix of), after `Add(name)` the call `IsProducer(m)`
is true for every `m` that `name` is a prefix of, whether `Add` appended `name` or
found an equal entry and appended nothing. -/
theorem C9_add_then_isProducer {Name : Type} (ops : NameOps Name)
    (hcompat : ∀ a b m, ops.Equals a b = true → ops.PrefixOf b m = true →
      ops.PrefixOf a m = true)
    (n : networkRegionTable Name) (name m : Name) (hpre : ops.PrefixOf name m = true) :
    networkRegionTable.IsProducer ops (networkRegionTable.Add ops n name) m = true := by
  unfold networkRegionTable.IsProducer networkRegionTable.Add
  rw [networkRegionTable.isProducerLoop_iff]
  by_cases hf : networkRegionTable.addFound ops name n.table = true
  · obtain ⟨region, hmem, heq⟩ := (networkRegionTable.addFound_iff ops name n.table).1 hf
    rw [if_pos hf]
    exact ⟨region, hmem, hcompat region name m heq hpre⟩
  · rw [if_neg hf]
    exact ⟨name, by simp, hpre⟩

/-- C9 at the table `[/1, /2/3]`: adding `/2/3` again appends nothing and `/2/3/4` is a
producer name; the names are component lists with list equality and list prefix. -/
theorem C9_add_then_isProducer_witness :
    (∀ a b m : List Nat, listNameOps.Equals a b = true → listNameOps.PrefixOf b m = true →
        listNameOps.PrefixOf a m = true) ∧
      listNameOps.PrefixOf [2, 3] [2, 3, 4] = true ∧
      networkRegionTable.IsProducer listNameOps
        (networkRegionTable.Add listNameOps sampleRegions [2, 3]) [2, 3, 4] = true :=
  have hc : ∀ a b m : List Nat, listNameOps.Equals a b = true →
      listNameOps.PrefixOf b m = true → listNameOps.PrefixOf a m = true := by
    intro a b m hab hbm
    have : a = b := by simpa [listNameOps] using hab
    rw [this]; exact hbm
  ⟨hc, by decide, C9_add_then_isProducer listNameOps hc sampleRegions [2, 3] [2, 3, 4] (by decide)⟩

/-- C10: `Add(name)` either leaves the table as it was (some existing entry equals
`name`) or appends `name` as the last entry (no existing entry equals it); and every
name that was a producer name before `Add` is one after it. -/
theorem C10_add_append_only {Name : Type} (ops : NameOps Name) (n : networkRegionTable Name)
    (name : Name) :
    (((∃ region ∈ n.table, ops.Equals region name = true) ∧
          networkRegionTable.Add ops n name = n) ∨
        ((∀ region ∈ n.table, ops.Equals region name = false) ∧
          (networkRegionTable.Add ops n name).table = n.table ++ [name])) ∧
      ∀ m, networkRegionTable.IsProducer ops n m = true →
        networkRegionTable.IsProducer ops (networkRegionTable.Add ops n name) m = true := by
  by_cases hf : networkRegionTable.addFound ops name n.table = true
  · have hadd : networkRegionTable.Add ops n name = n := by
      simp [networkRegionTable.Add, hf]
    refine ⟨Or.inl ⟨(networkRegionTable.addFound_iff ops name n.table).1 hf, hadd⟩, ?_⟩
    intro m hm
    rw [hadd]; exact hm
  · have hadd : (networkRegionTable.Add ops n name).table = n.table ++ [name] := by
      simp [networkRegionTable.Add, hf]
    refine ⟨Or.inr ⟨?_, hadd⟩, ?_⟩
    · intro region hmem
      by_contra hne
      exact hf ((networkRegionTable.addFound_iff ops name n.table).2
        ⟨region, hmem, by simpa using hne⟩)
    · intro m hm
      unfold networkRegionTable.IsProducer at hm ⊢
      rw [networkRegionTable.isProducerLoop_iff] at hm ⊢
      obtain ⟨region, hmem, hp⟩ := hm
      exact ⟨region, by rw [hadd]; exact List.mem_append_left _ hmem, hp⟩

/-! ## Theorems: BestRoute -/

namespace BestRoute

variable {Interest Data InRecord : Type}

/-- Invariant of the lowest-cost loop. `pre` holds the nexthops already visited and
`cur`, at index `k` of `pre`, is the earliest entry of least cost among them; the loop
over `rest` then ends on the earliest entry of least cost of `pre ++ rest`. -/
theorem lowestCostLoop_spec (rest : List FibNextHopEntry) :
    ∀ (pre : List FibNextHopEntry) (cur : FibNextHopEntry) (k : Nat),
      pre[k]? = some cur →
      (∀ e ∈ pre, cur.Cost ≤ e.Cost) →
      (∀ (j : Nat) (e : FibNextHopEntry), j < k → pre[j]? = some e → cur.Cost < e.Cost) →
      ∃ i, (pre ++ rest)[i]? = some (lowestCostLoop cur rest) ∧
        (∀ e ∈ pre ++ rest, (lowestCostLoop cur rest).Cost ≤ e.Cost) ∧
        (∀ (j : Nat) (e : FibNextHopEntry), j < i → (pre ++ rest)[j]? = some e → (lowestCostLoop cur rest).Cost < e.Cost) := by
  induction rest with
  | nil =>
    intro pre cur k hk hmin hfirst
    exact ⟨k, by simpa [lowestCostLoop] using hk, by simpa [lowestCostLoop] using hmin,
      by simpa [lowestCostLoop] using hfirst⟩
  | cons x rest ih =>
    intro pre cur k hk hmin hfirst
    have hklt : k < pre.length := by
      by_contra hge
      rw [List.getElem?_eq_none (Nat.le_of_not_lt hge)] at hk
      exact Option.noConfusion hk
    have happ : pre ++ x :: rest = (pre ++ [x]) ++ rest := by simp
    by_cases hlt : x.Cost < cur.Cost
    · have hstep : lowestCostLoop cur (x :: rest) = lowestCostLoop x rest := by
        simp [lowestCostLoop, hlt]
      rw [hstep, happ]
      apply ih (pre ++ [x]) x pre.length
      · simp
      · intro e he
        rcases List.mem_append.1 he with h | h
        · exact Nat.le_of_lt (Nat.lt_of_lt_of_le hlt (hmin e h))
        · have : e = x := by simpa using h
          rw [this]
      · intro j e hj hje
        rw [List.getElem?_append_left hj] at hje
        exact Nat.lt_of_lt_of_le hlt (hmin e (List.getElem?_mem hje))
    · have hstep : lowestCostLoop cur (x :: rest) = lowestCostLoop cur rest := by
        simp [lowestCostLoop, hlt]
      rw [hstep, happ]
      apply ih (pre ++ [x]) cur k
      · rw [List.getElem?_append_left hklt]; exact hk
      · intro e he
        rcases List.mem_append.1 he with h | h
        · exact hmin e h
        · have : e = x := by simpa using h
          rw [this]; exact Nat.le_of_not_lt hlt
      · intro j e hj hje
        rw [List.getElem?_append_left (Nat.lt_trans hj hklt)] at hje
        exact hfirst j e hj hje

theorem afterReceiveDataLoop_countP (pitEntry : PitEntry InRecord) (inFace : Nat) (data : Data)
    (faceID : Nat) (recs : List (Nat × InRecord)) :
    (afterReceiveDataLoop pitEntry inFace data recs :
        List (Call Interest Data InRecord)).countP (Call.isSendDataTo faceID)
      = (recs.map Prod.fst).count faceID := by
  induction recs with
  | nil => simp [afterReceiveDataLoop]
  | cons r rest ih =>
    obtain ⟨f, v⟩ := r
    by_cases h : f = faceID
    · simp [afterReceiveDataLoop, Call.isSendDataTo, List.countP_cons, h, ih]
    · simp [afterReceiveDataLoop, Call.isSendDataTo, List.countP_cons, h, ih,
        List.count_cons]

theorem afterReceiveDataLoop_mem (pitEntry : PitEntry InRecord) (inFace : Nat) (data : Data)
    (recs : List (Nat × InRecord)) (call : Call Interest Data InRecord)
    (hc : call ∈ afterReceiveDataLoop pitEntry inFace data recs) :
    ∃ faceID ∈ recs.map Prod.fst, call = Call.SendData data pitEntry faceID inFace := by
  induction recs with
  | nil => simp [afterReceiveDataLoop] at hc
  | cons r rest ih =>
    obtain ⟨f, v⟩ := r
    simp only [afterReceiveDataLoop, List.mem_cons] at hc
    rcases hc with h | h
    · exact ⟨f, by simp, h⟩
    · obtain ⟨g, hg, hcall⟩ := ih h
      exact ⟨g, by simp only [List.map_cons, List.mem_cons]; exact Or.inr hg, hcall⟩

end BestRoute

/-- C5: on a non-empty nexthop list `AfterReceiveInterest` makes exactly one call,
`SendInterest(interest, pitEntry, lowest.Nexthop, inFace)`, where `lowest` is an entry
of the list (at index `i`) whose cost is at most every cost in the list and strictly
below the cost of every entry before index `i`, that is the earliest entry of least
cost. -/
theorem C5_afterReceiveInterest_lowest_cost {Interest Data InRecord : Type}
    (pitEntry : PitEntry InRecord) (inFace : Nat) (interest : Interest)
    (nexthops : List FibNextHopEntry) (hne : nexthops ≠ []) :
    ∃ (i : Nat) (lowest : FibNextHopEntry), nexthops[i]? = some lowest ∧
      (BestRoute.AfterReceiveInterest pitEntry inFace interest nexthops :
          List (Call Interest Data InRecord))
        = [Call.SendInterest interest pitEntry lowest.Nexthop inFace] ∧
      (∀ e ∈ nexthops, lowest.Cost ≤ e.Cost) ∧
      (∀ (j : Nat) (e : FibNextHopEntry), j < i → nexthops[j]? = some e → lowest.Cost < e.Cost) := by
  cases nexthops with
  | nil => exact absurd rfl hne
  | cons first tl =>
    have hstep : BestRoute.lowestCostLoop first (first :: tl) = BestRoute.lowestCostLoop first tl := by
      simp [BestRoute.lowestCostLoop]
    obtain ⟨i, hi, hmin, hfirst⟩ := BestRoute.lowestCostLoop_spec tl [first] first 0 (by simp)
      (by intro e he; have : e = first := by simpa using he
          rw [this])
      (by intro j e hj; exact absurd hj (Nat.not_lt_zero j))
    refine ⟨i, BestRoute.lowestCostLoop first tl, by simpa using hi, ?_, by simpa using hmin,
      by simpa using hfirst⟩
    simp [BestRoute.AfterReceiveInterest, hstep]

/-- C5 at the nexthops (face 2, cost 10), (face 3, cost 5), (face 4, cost 5). -/
theorem C5_afterReceiveInterest_lowest_cost_witness :
    sampleNexthops ≠ [] ∧
      ∃ (i : Nat) (lowest : FibNextHopEntry), sampleNexthops[i]? = some lowest ∧
        (BestRoute.AfterReceiveInterest samplePitEntry 1 0xAA sampleNexthops :
            List (Call Nat Nat Unit))
          = [Call.SendInterest 0xAA samplePitEntry lowest.Nexthop 1] ∧
        (∀ e ∈ sampleNexthops, lowest.Cost ≤ e.Cost) ∧
        (∀ (j : Nat) (e : FibNextHopEntry), j < i → sampleNexthops[j]? = some e → lowest.Cost < e.Cost) :=
  ⟨by decide, C5_afterReceiveInterest_lowest_cost samplePitEntry 1 0xAA sampleNexthops (by decide)⟩

/-- C6: for a PIT entry whose InRecords map holds each face id once,
`AfterReceiveData` makes exactly one `SendData` call with destination `faceID` for each
`faceID` that has an InRecord and none for any other face id; and every call it makes
is `SendData(data, pitEntry, faceID, inFace)` for a `faceID` that has an InRecord. -/
theorem C6_afterReceiveData_each_inRecord {Interest Data InRecord : Type}
    (pitEntry : PitEntry InRecord) (inFace : Nat) (data : Data)
    (hmap : (pitEntry.InRecords.map Prod.fst).Nodup) :
    (∀ faceID,
        (BestRoute.AfterReceiveData pitEntry inFace data :
            List (Call Interest Data InRecord)).countP (Call.isSendDataTo faceID)
          = if faceID ∈ pitEntry.InRecords.map Prod.fst then 1 else 0) ∧
      (∀ call ∈ (BestRoute.AfterReceiveData pitEntry inFace data :
            List (Call Interest Data InRecord)),
        ∃ faceID ∈ pitEntry.InRecords.map Prod.fst,
          call = Call.SendData data pitEntry faceID inFace) := by
  refine ⟨?_, ?_⟩
  · intro faceID
    unfold BestRoute.AfterReceiveData
    rw [BestRoute.afterReceiveDataLoop_countP]
    by_cases h : faceID ∈ pitEntry.InRecords.map Prod.fst
    · rw [if_pos h]; exact List.count_eq_one_of_mem hmap h
    · rw [if_neg h]; exact List.count_eq_zero_of_not_mem h
  · intro call hc
    exact BestRoute.afterReceiveDataLoop_mem pitEntry inFace data pitEntry.InRecords call hc

/-- C6 at the PIT entry with InRecords for faces 1 and 3, Data arriving on face 2. -/
theorem C6_afterReceiveData_each_inRecord_witness :
    (samplePitEntry.InRecords.map Prod.fst).Nodup ∧
      ((∀ faceID,
          (BestRoute.AfterReceiveData samplePitEntry 2 7 :
              List (Call Nat Nat Unit)).countP (Call.isSendDataTo faceID)
            = if faceID ∈ samplePitEntry.InRecords.map Prod.fst then 1 else 0) ∧
        (∀ call ∈ (BestRoute.AfterReceiveData samplePitEntry 2 7 : List (Call Nat Nat Unit)),
          ∃ faceID ∈ samplePitEntry.InRecords.map Prod.fst,
            call = Call.SendData 7 samplePitEntry faceID 2)) :=
  ⟨by decide, C6_afterReceiveData_each_inRecord samplePitEntry 2 7 (by decide)⟩

/-- C7: `AfterContentStoreHit` makes exactly one call, `SendData(data, pitEntry, inFace, 0)`:
the Data goes to `inFace` with source face id 0, and no call has another destination. -/
theorem C7_afterContentStoreHit_single_send {Interest Data InRecord : Type}
    (pitEntry : PitEntry InRecord) (inFace : Nat) (data : Data) :
    (BestRoute.AfterContentStoreHit pitEntry inFace data : List (Call Interest Data InRecord))
        = [Call.SendData data pitEntry inFace 0] ∧
      ∀ faceID, faceID ≠ inFace →
        (BestRoute.AfterContentStoreHit pitEntry inFace data :
            List (Call Interest Data InRecord)).countP (Call.isSendDataTo faceID) = 0 := by
  refine ⟨rfl, ?_⟩
  intro faceID hne
  simp [BestRoute.AfterContentStoreHit, Call.isSendDataTo, List.countP_cons, Ne.symm hne]

/-! ## Theorems: ControlParameters codec -/

section Codec

variable {Block N U : Type}

/-- The loop over `pre ++ rest` is the loop over `pre` followed, when that does not
return an error, by the loop over `rest` from the state it reached. -/
theorem decodeLoop_append (tlv : TlvPackage Block) (ndn : NdnPackage Block N U)
    (pre rest : List Block) :
    ∀ (c : ControlParameters N U) (err : Option String),
      decodeLoop tlv ndn c err (pre ++ rest) =
        match decodeLoop tlv ndn c err pre with
        | .ok (c, err) => decodeLoop tlv ndn c err rest
        | .error e => .error e := by
  induction pre with
  | nil => intro c err; simp [decodeLoop]
  | cons x pre ih =>
    intro c err
    simp only [List.cons_append, decodeLoop]
    cases hx : decodeElem tlv ndn c err x with
    | error e => simp
    | ok st => obtain ⟨c1, err1⟩ := st; simp [ih c1 err1]

/-- The `default` case of the `switch`: an element whose type is none of the sixteen
case labels and is critical makes the function return `tlv.ErrUnrecognizedCritical`,
whatever the state. -/
theorem decodeElem_unrecognised_critical (tlv : TlvPackage Block) (ndn : NdnPackage Block N U)
    (c : ControlParameters N U) (err : Option String) (elem : Block)
    (hrec : tlv.recognised (tlv.BlockType elem) = false)
    (hcrit : tlv.IsCritical (tlv.BlockType elem) = true) :
    decodeElem tlv ndn c err elem = .error .ErrUnrecognizedCritical := by
  simp only [TlvPackage.recognised, decide_eq_false_iff_not, List.mem_cons, List.mem_singleton,
    not_or, List.not_mem_nil, or_false] at hrec
  obtain ⟨h1, h2, h3, h4, h5, h6, h7, h8, h9, h10, h11, h12, h13, h14, h15, h16⟩ := hrec
  simp [decodeElem, h1, h2, h3, h4, h5, h6, h7, h8, h9, h10, h11, h12, h13, h14, h15, h16, hcrit]

/-- The `case tlv.DefaultCongestionThreshold` of the `switch` reads the FaceID slot:
with FaceID set the element is rejected as a duplicate, and with FaceID unset a
decodable element is stored even when DefaultCongestionThreshold is already set. -/
theorem decodeElem_threshold (tlv : TlvPackage Block) (ndn : NdnPackage Block N U)
    (c : ControlParameters N U) (err : Option String) (elem : Block)
    (hty : tlv.BlockType elem = tlv.DefaultCongestionThreshold)
    (hdistinct : tlv.DefaultCongestionThreshold ∉ [tlv.Name, tlv.FaceID, tlv.URI, tlv.LocalURI,
      tlv.Origin, tlv.Cost, tlv.Capacity, tlv.Count, tlv.BaseCongestionMarkingInterval]) :
    (c.FaceID.isSome = true →
        decodeElem tlv ndn c err elem = .error (.New "duplicate DefaultCongestionThreshold")) ∧
      (∀ v, c.FaceID = none → tlv.DecodeNNIBlock elem = .ok v →
        decodeElem tlv ndn c err elem
          = .ok ({ c with DefaultCongestionThreshold := some v }, none)) := by
  simp only [List.mem_cons, List.mem_singleton, not_or, List.not_mem_nil, or_false] at hdistinct
  obtain ⟨h1, h2, h3, h4, h5, h6, h7, h8, h9⟩ := hdistinct
  refine ⟨?_, ?_⟩
  · intro hf
    simp [decodeElem, hty, h1, h2, h3, h4, h5, h6, h7, h8, h9, hf]
  · intro v hf hv
    simp [decodeElem, hty, h1, h2, h3, h4, h5, h6, h7, h8, h9, hf, hv]

end Codec

/-- C1 fails on the code: the value with FaceID 1 and DefaultCongestionThreshold 2 is
encoded to a block that `DecodeControlParameters` rejects with the error
"duplicate DefaultCongestionThreshold", so encoding then decoding does not give the
value back. -/
theorem C1_roundtrip_rejects_faceid_with_threshold :
    encodeThenDecode treeTlv treeNdn faceAndThreshold
      = .error (.New "duplicate DefaultCongestionThreshold") := by
  rfl

/-- C2 fails on the code: a ControlParameters block with two
DefaultCongestionThreshold elements (holding 1 and 2) is decoded without error, the
second element overwriting the first. -/
theorem C2_duplicate_threshold_accepted :
    DecodeControlParameters treeTlv treeNdn (some (cpBlock [thresholdElem 1, thresholdElem 2]))
      = .ok ({ DefaultCongestionThreshold := some 2 } :
          ControlParameters (List (List Nat)) (List Nat)) := by
  rfl

/-- C3 fails on the code: a ControlParameters block with one FaceId element followed
by one DefaultCongestionThreshold element is rejected with
"duplicate DefaultCongestionThreshold", while the same two elements in the other order
are accepted. -/
theorem C3_faceid_then_threshold_rejected :
    DecodeControlParameters treeTlv treeNdn (some (cpBlock [faceIdElem 1, thresholdElem 2]))
        = (.error (.New "duplicate DefaultCongestionThreshold") :
            Except Error (ControlParameters (List (List Nat)) (List Nat))) ∧
      DecodeControlParameters treeTlv treeNdn (some (cpBlock [thresholdElem 2, faceIdElem 1]))
        = .ok ({ FaceID := some 1, DefaultCongestionThreshold := some 2 } :
            ControlParameters (List (List Nat)) (List Nat)) := by
  exact ⟨rfl, rfl⟩

/-- C4: a block of type ControlParameters whose parsed subelements are `pre`, then an
element `e` whose type is none of the sixteen field types and is critical, then
`post`, is decoded to an error and no value; and when the loop over the earlier
elements `pre` ends without an error, the error is `tlv.ErrUnrecognizedCritical`. -/
theorem C4_unrecognised_critical_rejected {Block N U : Type} (tlv : TlvPackage Block)
    (ndn : NdnPackage Block N U) (wire : Block) (pre post : List Block) (e : Block)
    (hty : tlv.BlockType wire = tlv.ControlParameters)
    (hsub : tlv.Subelements (tlv.Parse wire) = pre ++ e :: post)
    (hrec : tlv.recognised (tlv.BlockType e) = false)
    (hcrit : tlv.IsCritical (tlv.BlockType e) = true) :
    (∃ err, DecodeControlParameters tlv ndn (some wire) = .error err) ∧
      (∀ st, decodeLoop tlv ndn {} none pre = .ok st →
        DecodeControlParameters tlv ndn (some wire) = .error .ErrUnrecognizedCritical) := by
  have hloop : ∀ st, decodeLoop tlv ndn {} none pre = .ok st →
      decodeLoop tlv ndn {} none (pre ++ e :: post) = .error .ErrUnrecognizedCritical := by
    intro st hst
    obtain ⟨c1, err1⟩ := st
    rw [decodeLoop_append, hst]
    simp [decodeLoop, decodeElem_unrecognised_critical tlv ndn c1 err1 e hrec hcrit]
  refine ⟨?_, ?_⟩
  · cases hpre : decodeLoop tlv ndn ({} : ControlParameters N U) none pre with
    | error x =>
      refine ⟨x, ?_⟩
      simp [DecodeControlParameters, hty, hsub, decodeLoop_append, hpre]
    | ok st =>
      refine ⟨.ErrUnrecognizedCritical, ?_⟩
      simp [DecodeControlParameters, hty, hsub, hloop st hpre]
  · intro st hst
    simp [DecodeControlParameters, hty, hsub, hloop st hst]

/-- C4 at the block with a FaceId element, then an element of the unassigned critical
type 0x63, then a DefaultCongestionThreshold element. -/
theorem C4_unrecognised_critical_rejected_witness :
    treeTlv.BlockType (cpBlock [faceIdElem 1, unknownCriticalElem, thresholdElem 2])
        = treeTlv.ControlParameters ∧
      treeTlv.Subelements
          (treeTlv.Parse (cpBlock [faceIdElem 1, unknownCriticalElem, thresholdElem 2]))
        = [faceIdElem 1] ++ unknownCriticalElem :: [thresholdElem 2] ∧
      treeTlv.recognised (treeTlv.BlockType unknownCriticalElem) = false ∧
      treeTlv.IsCritical (treeTlv.BlockType unknownCriticalElem) = true ∧
      decodeLoop treeTlv treeNdn {} none [faceIdElem 1]
        = .ok (({ FaceID := some 1 } : ControlParameters (List (List Nat)) (List Nat)), none) ∧
      ((∃ err, DecodeControlParameters treeTlv treeNdn
            (some (cpBlock [faceIdElem 1, unknownCriticalElem, thresholdElem 2])) = .error err) ∧
        (∀ st, decodeLoop treeTlv treeNdn {} none [faceIdElem 1] = .ok st →
          DecodeControlParameters treeTlv treeNdn
              (some (cpBlock [faceIdElem 1, unknownCriticalElem, thresholdElem 2]))
            = .error .ErrUnrecognizedCritical)) :=
  ⟨rfl, rfl, by decide, by decide, rfl,
    C4_unrecognised_critical_rejected treeTlv treeNdn
      (cpBlock [faceIdElem 1, unknownCriticalElem, thresholdElem 2])
      [faceIdElem 1] [thresholdElem 2] unknownCriticalElem rfl rfl (by decide) (by decide)⟩

section Codec

variable {Block N U : Type}

/-- The `case tlv.Strategy` of the `switch`, for an element of type Strategy when the
Strategy type number is none of the thirteen case labels before it. -/
theorem decodeElem_strategy (tlv : TlvPackage Block) (ndn : NdnPackage Block N U)
    (c : ControlParameters N U) (err : Option String) (elem : Block)
    (helem : tlv.BlockType elem = tlv.Strategy)
    (hdistinct : tlv.Strategy ∉ [tlv.Name, tlv.FaceID, tlv.URI, tlv.LocalURI, tlv.Origin,
      tlv.Cost, tlv.Capacity, tlv.Count, tlv.BaseCongestionMarkingInterval,
      tlv.DefaultCongestionThreshold, tlv.MTU, tlv.Flags, tlv.Mask]) :
    decodeElem tlv ndn c err elem =
      if c.Strategy.isSome then .error (.New "duplicate Strategy")
      else
        match tlv.Subelements (tlv.Parse elem) with
        | [sub] =>
            match ndn.DecodeName sub with
            | .ok name => .ok ({ c with Strategy := some name }, none)
            | .error e => .error (.New ("unable to decode Strategy: " ++ e))
        | subs =>
            .error (.New ("unable to decode Strategy: Expecting one subelement, found "
              ++ toString subs.length)) := by
  simp only [List.mem_cons, List.mem_singleton, not_or, List.not_mem_nil, or_false] at hdistinct
  obtain ⟨h1, h2, h3, h4, h5, h6, h7, h8, h9, h10, h11, h12, h13⟩ := hdistinct
  simp only [decodeElem, helem, h1, h2, h3, h4, h5, h6, h7, h8, h9, h10, h11, h12, h13,
    if_false, if_true]

/-- No iteration of the loop changes a Strategy field that is already set. -/
theorem decodeElem_keeps_strategy (tlv : TlvPackage Block) (ndn : NdnPackage Block N U)
    (c c1 : ControlParameters N U) (err err1 : Option String) (elem : Block) (name : N)
    (h : decodeElem tlv ndn c err elem = .ok (c1, err1)) (hs : c.Strategy = some name) :
    c1.Strategy = some name := by
  unfold decodeElem at h
  dsimp only at h
  by_cases ht : tlv.BlockType elem = tlv.Name
  · rw [if_pos ht] at h
    split_ifs at h
    split at h
    · cases h; exact hs
    · exact Except.noConfusion h
  rw [if_neg ht] at h
  clear ht
  by_cases ht : tlv.BlockType elem = tlv.FaceID
  · rw [if_pos ht] at h
    split_ifs at h
    split at h
    · cases h; exact hs
    · exact Except.noConfusion h
  rw [if_neg ht] at h
  clear ht
  by_cases ht : tlv.BlockType elem = tlv.URI
  · rw [if_pos ht] at h
    split_ifs at h
    split at h
    · exact Except.noConfusion h
    · cases h; exact hs
  rw [if_neg ht] at h
  clear ht
  by_cases ht : tlv.BlockType elem = tlv.LocalURI
  · rw [if_pos ht] at h
    split_ifs at h
    split at h
    · exact Except.noConfusion h
    · cases h; exact hs
  rw [if_neg ht] at h
  clear ht
  by_cases ht : tlv.BlockType elem = tlv.Origin
  · rw [if_pos ht] at h
    split_ifs at h
    split at h
    · cases h; exact hs
    · exact Except.noConfusion h
  rw [if_neg ht] at h
  clear ht
  by_cases ht : tlv.BlockType elem = tlv.Cost
  · rw [if_pos ht] at h
    split_ifs at h
    split at h
    · cases h; exact hs
    · exact Except.noConfusion h
  rw [if_neg ht] at h
  clear ht
  by_cases ht : tlv.BlockType elem = tlv.Capacity
  · rw [if_pos ht] at h
    split_ifs at h
    split at h
    · cases h; exact hs
    · exact Except.noConfusion h
  rw [if_neg ht] at h
  clear ht
  by_cases ht : tlv.BlockType elem = tlv.Count
  · rw [if_pos ht] at h
    split_ifs at h
    split at h
    · cases h; exact hs
    · exact Except.noConfusion h
  rw [if_neg ht] at h
  clear ht
  by_cases ht : tlv.BlockType elem = tlv.BaseCongestionMarkingInterval
  · rw [if_pos ht] at h
    split_ifs at h
    split at h
    · cases h; exact hs
    · exact Except.noConfusion h
  rw [if_neg ht] at h
  clear ht
  by_cases ht : tlv.BlockType elem = tlv.DefaultCongestionThreshold
  · rw [if_pos ht] at h
    split_ifs at h
    split at h
    · cases h; exact hs
    · exact Except.noConfusion h
  rw [if_neg ht] at h
  clear ht
  by_cases ht : tlv.BlockType elem = tlv.MTU
  · rw [if_pos ht] at h
    split_ifs at h
    split at h
    · cases h; exact hs
    · exact Except.noConfusion h
  rw [if_neg ht] at h
  clear ht
  by_cases ht : tlv.BlockType elem = tlv.Flags
  · rw [if_pos ht] at h
    split_ifs at h
    split at h
    · cases h; exact hs
    · exact Except.noConfusion h
  rw [if_neg ht] at h
  clear ht
  by_cases ht : tlv.BlockType elem = tlv.Mask
  · rw [if_pos ht] at h
    split_ifs at h
    split at h
    · cases h; exact hs
    · exact Except.noConfusion h
  rw [if_neg ht] at h
  clear ht
  by_cases ht : tlv.BlockType elem = tlv.Strategy
  · rw [if_pos ht] at h
    split_ifs at h with hset
    exact absurd (by rw [hs]; rfl) hset
  rw [if_neg ht] at h
  clear ht
  by_cases ht : tlv.BlockType elem = tlv.ExpirationPeriod
  · rw [if_pos ht] at h
    split_ifs at h
    split at h
    · cases h; exact hs
    · exact Except.noConfusion h
  rw [if_neg ht] at h
  clear ht
  by_cases ht : tlv.BlockType elem = tlv.FacePersistency
  · rw [if_pos ht] at h
    split_ifs at h
    split at h
    · cases h; exact hs
    · exact Except.noConfusion h
  rw [if_neg ht] at h
  clear ht
  split_ifs at h
  cases h
  exact hs

/-- The loop does not change a Strategy field that is already set. -/
theorem decodeLoop_keeps_strategy (tlv : TlvPackage Block) (ndn : NdnPackage Block N U)
    (name : N) (elems : List Block) :
    ∀ (c c1 : ControlParameters N U) (err err1 : Option String),
      decodeLoop tlv ndn c err elems = .ok (c1, err1) → c.Strategy = some name →
      c1.Strategy = some name := by
  induction elems with
  | nil =>
    intro c c1 err err1 h hs
    simp only [decodeLoop, Except.ok.injEq, Prod.mk.injEq] at h
    rw [← h.1]; exact hs
  | cons x rest ih =>
    intro c c1 err err1 h hs
    simp only [decodeLoop] at h
    cases hx : decodeElem tlv ndn c err x with
    | error e => rw [hx] at h; exact Except.noConfusion h
    | ok st =>
      obtain ⟨c2, err2⟩ := st
      rw [hx] at h
      exact ih c2 c1 err2 err1 h (decodeElem_keeps_strategy tlv ndn c c2 err err2 x name hx hs)

end Codec

/-- C12: `DecodeControlParameters` returns an error ("wire is unset") and no value on
the nil block, and returns `tlv.ErrUnexpected` and no value on every block whose type
is not `tlv.ControlParameters`, whatever its value and subelements are. -/
theorem C12_nil_or_wrong_type_rejected {Block N U : Type} (tlv : TlvPackage Block)
    (ndn : NdnPackage Block N U) :
    DecodeControlParameters tlv ndn none = .error (.New "wire is unset") ∧
      ∀ wire : Block, tlv.BlockType wire ≠ tlv.ControlParameters →
        DecodeControlParameters tlv ndn (some wire) = .error .ErrUnexpected := by
  refine ⟨rfl, ?_⟩
  intro wire hne
  simp [DecodeControlParameters, hne]

/-- C13: on the empty nexthop list `AfterReceiveInterest` returns without making any
call, so no `SendInterest` and no `SendData`; the function is total, so it does not
fail on the empty list. -/
theorem C13_afterReceiveInterest_empty_drops {Interest Data InRecord : Type}
    (pitEntry : PitEntry InRecord) (inFace : Nat) (interest : Interest) :
    (BestRoute.AfterReceiveInterest pitEntry inFace interest [] :
        List (Call Interest Data InRecord)) = [] := by
  rfl

/-- C14: in a block of type ControlParameters whose parsed subelements are `pre`, then
an element `elem` of type Strategy, then `post` (the Strategy type number being none
of the case labels before it): when `elem` does not have exactly one subelement the
decode returns an error; when `elem` has exactly one subelement `sub`, every value the
decode returns has the Strategy field set to the Name decoded from `sub`; and the
Strategy case itself, reached with the Strategy field unset and `sub` decoding to
`name`, sets the Strategy field to `name`. -/
theorem C14_strategy_one_subelement {Block N U : Type} (tlv : TlvPackage Block)
    (ndn : NdnPackage Block N U) (wire : Block) (pre post : List Block) (elem : Block)
    (hty : tlv.BlockType wire = tlv.ControlParameters)
    (hsub : tlv.Subelements (tlv.Parse wire) = pre ++ elem :: post)
    (helem : tlv.BlockType elem = tlv.Strategy)
    (hdistinct : tlv.Strategy ∉ [tlv.Name, tlv.FaceID, tlv.URI, tlv.LocalURI, tlv.Origin,
      tlv.Cost, tlv.Capacity, tlv.Count, tlv.BaseCongestionMarkingInterval,
      tlv.DefaultCongestionThreshold, tlv.MTU, tlv.Flags, tlv.Mask]) :
    ((tlv.Subelements (tlv.Parse elem)).length ≠ 1 →
        ∃ err, DecodeControlParameters tlv ndn (some wire) = .error err) ∧
      (∀ sub c, tlv.Subelements (tlv.Parse elem) = [sub] →
        DecodeControlParameters tlv ndn (some wire) = .ok c →
        ∃ name, ndn.DecodeName sub = .ok name ∧ c.Strategy = some name) ∧
      (∀ sub name (c : ControlParameters N U) (err : Option String),
        tlv.Subelements (tlv.Parse elem) = [sub] → ndn.DecodeName sub = .ok name →
        c.Strategy = none →
        decodeElem tlv ndn c err elem = .ok ({ c with Strategy := some name }, none)) := by
  have hdec : DecodeControlParameters tlv ndn (some wire) =
      match decodeLoop tlv ndn ({} : ControlParameters N U) none pre with
      | .ok (c1, err1) =>
          (match decodeElem tlv ndn c1 err1 elem with
           | .ok (c2, err2) =>
               (match decodeLoop tlv ndn c2 err2 post with
                | .ok (c3, _) => .ok c3
                | .error e => .error e)
           | .error e => .error e)
      | .error e => .error e := by
    simp only [DecodeControlParameters, hty, ne_eq, not_true_eq_false, if_false, hsub,
      decodeLoop_append]
    cases decodeLoop tlv ndn ({} : ControlParameters N U) none pre with
    | error e => rfl
    | ok st =>
      obtain ⟨c1, err1⟩ := st
      simp only [decodeLoop]
      cases decodeElem tlv ndn c1 err1 elem with
      | error e => rfl
      | ok st2 => rfl
  refine ⟨?_, ?_, ?_⟩
  · intro hlen
    rw [hdec]
    cases decodeLoop tlv ndn ({} : ControlParameters N U) none pre with
    | error e => exact ⟨e, rfl⟩
    | ok st =>
      obtain ⟨c1, err1⟩ := st
      have hstep : ∃ e, decodeElem tlv ndn c1 err1 elem = .error e := by
        rw [decodeElem_strategy tlv ndn c1 err1 elem helem hdistinct]
        by_cases hset : c1.Strategy.isSome = true
        · exact ⟨_, if_pos hset⟩
        · rw [if_neg hset]
          split
          · rename_i heq
            rw [heq] at hlen
            exact absurd rfl hlen
          · exact ⟨_, rfl⟩
      obtain ⟨e, he⟩ := hstep
      exact ⟨e, by simp only [he]⟩
  · intro sub c hone hok
    rw [hdec] at hok
    cases hpre : decodeLoop tlv ndn ({} : ControlParameters N U) none pre with
    | error e => rw [hpre] at hok; exact Except.noConfusion hok
    | ok st =>
      obtain ⟨c1, err1⟩ := st
      rw [hpre] at hok
      simp only at hok
      cases hel : decodeElem tlv ndn c1 err1 elem with
      | error e => rw [hel] at hok; exact Except.noConfusion hok
      | ok st2 =>
        obtain ⟨c2, err2⟩ := st2
        rw [hel] at hok
        simp only at hok
        rw [decodeElem_strategy tlv ndn c1 err1 elem helem hdistinct, hone] at hel
        by_cases hset : c1.Strategy.isSome = true
        · rw [if_pos hset] at hel; exact Except.noConfusion hel
        · rw [if_neg hset] at hel
          simp only at hel
          cases hname : ndn.DecodeName sub with
          | error e => rw [hname] at hel; exact Except.noConfusion hel
          | ok name =>
            rw [hname] at hel
            simp only [Except.ok.injEq, Prod.mk.injEq] at hel
            have hc2 : c2.Strategy = some name := by rw [← hel.1]
            refine ⟨name, rfl, ?_⟩
            cases hpost : decodeLoop tlv ndn c2 err2 post with
            | error e => rw [hpost] at hok; exact Except.noConfusion hok
            | ok st3 =>
              obtain ⟨c3, err3⟩ := st3
              rw [hpost] at hok
              simp only [Except.ok.injEq] at hok
              rw [← hok]
              exact decodeLoop_keeps_strategy tlv ndn name post c2 c3 err2 err3 hpost hc2
  · intro sub name c err hone hname hnone
    rw [decodeElem_strategy tlv ndn c err elem helem hdistinct, hone]
    simp [hnone, hname]

/-- C14 at the block with a FaceId element and a Strategy element holding the Name
`/1/2`, which decodes to FaceID 1 and Strategy `/1/2`; a Strategy element with no
subelement or with two is rejected. -/
theorem C14_strategy_one_subelement_witness :
    (treeTlv.BlockType strategyWire = treeTlv.ControlParameters ∧
      treeTlv.Subelements (treeTlv.Parse strategyWire)
        = [faceIdElem 1] ++ strategyElem [sampleNameBlock] :: [] ∧
      treeTlv.BlockType (strategyElem [sampleNameBlock]) = treeTlv.Strategy ∧
      treeTlv.Strategy ∉ [treeTlv.Name, treeTlv.FaceID, treeTlv.URI, treeTlv.LocalURI,
        treeTlv.Origin, treeTlv.Cost, treeTlv.Capacity, treeTlv.Count,
        treeTlv.BaseCongestionMarkingInterval, treeTlv.DefaultCongestionThreshold, treeTlv.MTU,
        treeTlv.Flags, treeTlv.Mask]) ∧
      (((treeTlv.Subelements (treeTlv.Parse (strategyElem [sampleNameBlock]))).length ≠ 1 →
          ∃ err, DecodeControlParameters treeTlv treeNdn (some strategyWire) = .error err) ∧
        (∀ sub c, treeTlv.Subelements (treeTlv.Parse (strategyElem [sampleNameBlock])) = [sub] →
          DecodeControlParameters treeTlv treeNdn (some strategyWire) = .ok c →
          ∃ name, treeNdn.DecodeName sub = .ok name ∧ c.Strategy = some name) ∧
        (∀ sub name (c : ControlParameters (List (List Nat)) (List Nat)) (err : Option String),
          treeTlv.Subelements (treeTlv.Parse (strategyElem [sampleNameBlock])) = [sub] →
          treeNdn.DecodeName sub = .ok name → c.Strategy = none →
          decodeElem treeTlv treeNdn c err (strategyElem [sampleNameBlock])
            = .ok ({ c with Strategy := some name }, none))) ∧
      DecodeControlParameters treeTlv treeNdn (some strategyWire)
        = .ok ({ FaceID := some 1, Strategy := some [[1], [2]] } :
            ControlParameters (List (List Nat)) (List Nat)) ∧
      DecodeControlParameters treeTlv treeNdn (some (cpBlock [strategyElem []]))
        = (.error (.New "unable to decode Strategy: Expecting one subelement, found 0") :
            Except Error (ControlParameters (List (List Nat)) (List Nat))) ∧
      DecodeControlParameters treeTlv treeNdn
          (some (cpBlock [strategyElem [sampleNameBlock, sampleNameBlock]]))
        = (.error (.New "unable to decode Strategy: Expecting one subelement, found 2") :
            Except Error (ControlParameters (List (List Nat)) (List Nat))) :=
  ⟨⟨rfl, rfl, rfl, by decide⟩,
    C14_strategy_one_subelement treeTlv treeNdn strategyWire [faceIdElem 1] []
      (strategyElem [sampleNameBlock]) rfl rfl rfl (by decide),
    rfl, rfl, rfl⟩

/-! ## Theorems: Unix stream transport -/

/-- C11: `MakeUnixStreamTransport` returns no transport and `core.ErrNotCanonical`
exactly when `remoteURI` is not canonical, or its scheme is not "fd", or `localURI` is
not canonical, or its scheme is not "unix"; in every other case it returns a nil error
and a transport whose scope is Local and whose connection is `conn`. -/
theorem C11_makeUnixStreamTransport {URI Conn : Type} (face : FacePackage URI Conn)
    (remoteURI localURI : URI) (conn : Conn) :
    (MakeUnixStreamTransport face remoteURI localURI conn = .error .ErrNotCanonical ↔
        (face.IsCanonical remoteURI = false ∨ face.Scheme remoteURI ≠ "fd" ∨
          face.IsCanonical localURI = false ∨ face.Scheme localURI ≠ "unix")) ∧
      (¬(face.IsCanonical remoteURI = false ∨ face.Scheme remoteURI ≠ "fd" ∨
          face.IsCanonical localURI = false ∨ face.Scheme localURI ≠ "unix") →
        ∃ t, MakeUnixStreamTransport face remoteURI localURI conn = .ok t ∧
          t.scope = Scope.Local ∧ t.conn = conn) := by
  have hcond : ((!face.IsCanonical remoteURI || face.Scheme remoteURI != "fd"
        || !face.IsCanonical localURI || face.Scheme localURI != "unix") = true) ↔
      (face.IsCanonical remoteURI = false ∨ face.Scheme remoteURI ≠ "fd" ∨
        face.IsCanonical localURI = false ∨ face.Scheme localURI ≠ "unix") := by
    simp [or_assoc]
  unfold MakeUnixStreamTransport
  by_cases h : (!face.IsCanonical remoteURI || face.Scheme remoteURI != "fd"
      || !face.IsCanonical localURI || face.Scheme localURI != "unix") = true
  · rw [if_pos h]
    exact ⟨⟨fun _ => hcond.1 h, fun _ => rfl⟩, fun hn => absurd (hcond.1 h) hn⟩
  · rw [if_neg h]
    exact ⟨⟨fun he => Except.noConfusion he, fun hc => absurd (hcond.2 hc) h⟩,
      fun _ => ⟨_, rfl, rfl, rfl⟩⟩

/-- C15: for a frame longer than the MTU of the transport, `sendFrame` returns with the
transport as it was and without any call of `conn.Write`, whatever that call would
have returned. -/
theorem C15_sendFrame_drops_oversized {URI Conn : Type} (face : FacePackage URI Conn)
    (t : UnixStreamTransport URI Conn) (frame : List Nat) (writeErr : Option String)
    (hlen : frame.length > face.MTU t.totransportBase) :
    UnixStreamTransport.sendFrame face t frame writeErr = (t, []) := by
  unfold UnixStreamTransport.sendFrame
  rw [if_pos hlen]

/-- C15 at a transport with an MTU of 4 bytes and a frame of 5 bytes, with a write that
would fail. -/
theorem C15_sendFrame_drops_oversized_witness :
    ([1, 2, 3, 4, 5] : List Nat).length > sampleFace.MTU smallTransport.totransportBase ∧
      UnixStreamTransport.sendFrame sampleFace smallTransport [1, 2, 3, 4, 5]
          (some "broken pipe")
        = (smallTransport, []) :=
  ⟨by decide,
    C15_sendFrame_drops_oversized sampleFace smallTransport [1, 2, 3, 4, 5]
      (some "broken pipe") (by decide)⟩

end YaNFD
